import Mathlib

/-!
Verification of the dds package/build manager core against its source.

The definitions below are a shallow embedding of the C++ sources under
src/dds.  Pure fragments become Lean functions; the sqlite-backed catalog
becomes explicit state passing over a table model; fallible code returns
Except.  Where the deciding code is not part of the provided sources
(package_id parse/to_string, the file-deps helpers, libman / semver range
helpers), the definition is modelled from the specification and says so in
its doc comment.
-/

/-! ## Semver versions and package identifiers

Modelled from the spec: the textual form of a PackageId is
name@x.y.z[-pre][+meta] and is round-trippable (spec section 3).  The
implementation of package_id::parse / to_string is declared in
src/dds/package/id.hpp but its definition is not among the provided
sources, so the functions are modelled from the words of the spec.
-/

/-- Decimal digit to character, as used when printing version numbers. -/
def digitChar (d : Nat) : Char :=
  match d with
  | 0 => '0' | 1 => '1' | 2 => '2' | 3 => '3' | 4 => '4'
  | 5 => '5' | 6 => '6' | 7 => '7' | 8 => '8' | _ => '9'

/-- Numeric value of a decimal digit character. -/
def charVal (c : Char) : Nat := c.toNat - 48

/-- Decimal rendering of a natural number as a character list. -/
def natToChars (n : Nat) : List Char :=
  if n = 0 then ['0'] else ((Nat.digits 10 n).map digitChar).reverse

/-- Reads a decimal digit string (most significant digit first). -/
def readNat (cs : List Char) : Nat :=
  cs.foldl (fun a c => 10 * a + charVal c) 0

/-- Parses a non-empty all-digit character list into a natural number. -/
def parseNatChars (cs : List Char) : Option Nat :=
  if cs = [] then none
  else if cs.all Char.isDigit then some (readNat cs) else none

/-- Semver version as stored by dds: numeric triple plus optional
prerelease and build-metadata strings. -/
structure Version where
  major : Nat
  minor : Nat
  patch : Nat
  prerelease : String
  build : String
deriving DecidableEq, Repr

/-- Default version 0.0.0, matching a default-initialized semver value. -/
def Version.default0 : Version := ⟨0, 0, 0, "", ""⟩

/-- Modelled from the spec: renders a version as x.y.z[-pre][+meta]. -/
def Version.toChars (v : Version) : List Char :=
  natToChars v.major ++ '.' :: natToChars v.minor ++ '.' :: natToChars v.patch
    ++ (if v.prerelease = "" then [] else '-' :: v.prerelease.data)
    ++ (if v.build = "" then [] else '+' :: v.build.data)

/-- Textual form of a version. -/
def Version.render (v : Version) : String := ⟨v.toChars⟩

/-- Modelled from the spec: parses x.y.z[-pre][+meta] character lists.
Failure of semver parsing, which the C++ code signals by an exception, is
the none case. -/
def parseVersionChars (cs : List Char) : Option Version :=
  let majT := cs.takeWhile Char.isDigit
  match parseNatChars majT, cs.dropWhile Char.isDigit with
  | some mj, '.' :: rest2 =>
    let minT := rest2.takeWhile Char.isDigit
    match parseNatChars minT, rest2.dropWhile Char.isDigit with
    | some mn, '.' :: rest4 =>
      let patT := rest4.takeWhile Char.isDigit
      match parseNatChars patT with
      | some pt =>
        match rest4.dropWhile Char.isDigit with
        | [] => some ⟨mj, mn, pt, "", ""⟩
        | '-' :: rest6 =>
          let preT := rest6.takeWhile (fun c => c != '+')
          (match rest6.dropWhile (fun c => c != '+') with
           | [] => some ⟨mj, mn, pt, ⟨preT⟩, ""⟩
           | '+' :: bld => some ⟨mj, mn, pt, ⟨preT⟩, ⟨bld⟩⟩
           | _ => none)
        | '+' :: bld => some ⟨mj, mn, pt, "", ⟨bld⟩⟩
        | _ => none
      | none => none
    | _, _ => none
  | _, _ => none

/-- Parses a version from a string. -/
def Version.parse (s : String) : Option Version := parseVersionChars s.data

/-- Splits a character list at every occurrence of the separator. -/
def splitOnChar (sep : Char) : List Char → List (List Char)
  | [] => [[]]
  | c :: rest =>
    if c == sep then [] :: splitOnChar sep rest
    else
      match splitOnChar sep rest with
      | l :: ls => (c :: l) :: ls
      | [] => [[c]]

/-- Joins character lists with the given separator character. -/
def joinChar (sep : Char) : List (List Char) → List Char
  | [] => []
  | [l] => l
  | l :: ls => l ++ sep :: joinChar sep ls

/-- Character-list version of string prefix testing. -/
def isPrefixChars : List Char → List Char → Bool
  | [], _ => true
  | _ :: _, [] => false
  | a :: as, b :: bs => a == b && isPrefixChars as bs

/-- Strips leading and trailing whitespace from a character list. -/
def trimChars (l : List Char) : List Char :=
  ((l.dropWhile Char.isWhitespace).reverse.dropWhile Char.isWhitespace).reverse

/-- Unique package identifier: a simple name-version pair
(src/dds/package/id.hpp). -/
structure package_id where
  name : String
  version : Version
deriving DecidableEq, Repr

/-- Modelled from the spec: textual form name@version of a package id. -/
def package_id.to_string (p : package_id) : String :=
  ⟨p.name.data ++ '@' :: p.version.toChars⟩

/-- Modelled from the spec: parses the name@version textual form back into
a package id.  The name part runs to the first at-sign and must be
non-empty. -/
def package_id.parse (s : String) : Option package_id :=
  let nm := s.data.takeWhile (fun c => c != '@')
  match s.data.dropWhile (fun c => c != '@') with
  | '@' :: rest =>
    if nm.isEmpty then none
    else (parseVersionChars rest).map (fun v => ⟨⟨nm⟩, v⟩)
  | _ => none

/-! ## Error taxonomy

One inductive covering the errc kinds of src/dds/error/errors.hpp that the
embedded code paths can raise, together with the exception kinds of the
external libraries (semver, nlohmann-json, libman) that propagate through
the dds code uncaught. -/

/-- Error kinds raised by the embedded code paths. -/
inductive Errc where
  | invalid_pkg_name (msg : String)
  | invalid_version_string (msg : String)
  | invalid_version_range_string (msg : String)
  | invalid_pkg_manifest (msg : String)
  | unknown_test_driver (msg : String)
  | invalid_catalog_json (msg : String)
  | no_catalog_remote_info (msg : String)
  | catalog_too_new
  | corrupted_catalog_db
  | compile_failure (msg : String)
  | sqlite3_error
  | constraint_violation
  | invalid_semver
  | invalid_range
  | invalid_usage_string
  | json_type_error
  | missing_required_key (msg : String)
  | unknown_key (msg : String)
deriving DecidableEq, Repr

/-! ## Catalog data model (src/dds/catalog/catalog.cpp)

The sqlite tables created by migrate_repodb_1 are modelled as lists of
rows plus the AUTOINCREMENT counter for dds_cat_pkgs.pkg_id.  The CHECK
constraints of the schema are enforced by the store operation; the
PRAGMA foreign_keys statement issued inside the open transaction is a
no-op in sqlite, so foreign keys stay unenforced and an INSERT OR REPLACE
of an existing package orphans its old dependency rows instead of
deleting or cascading them; the model keeps those rows. -/

/-- The libman namespace/name pair used for auto-lib declarations. -/
structure lm_usage where
  namespace_ : String
  name : String
deriving DecidableEq, Repr

/-- Remote listing for a package acquired over git. -/
structure git_remote_listing where
  url : String
  ref : String
  auto_lib : Option lm_usage
deriving DecidableEq, Repr

/-- One dependency edge: dependency name plus the half-open version
interval [low, high).  The persisted schema pins exactly one interval per
edge (catalog::store asserts num_intervals = 1). -/
structure dependency where
  name : String
  low : Version
  high : Version
deriving DecidableEq, Repr

/-- Package information as stored in the catalog. -/
structure package_info where
  ident : package_id
  deps : List dependency
  description : String
  remote : git_remote_listing
deriving DecidableEq, Repr

/-- Row of the dds_cat_pkgs table. -/
structure PkgRow where
  pkg_id : Nat
  name : String
  version : Version
  git_url : String
  git_ref : String
  lm_name : Option String
  lm_namespace : Option String
  description : String
deriving DecidableEq, Repr

/-- Row of the dds_cat_pkg_deps table. -/
structure DepRow where
  pkg_id : Nat
  dep_name : String
  low : Version
  high : Version
deriving DecidableEq, Repr

/-- Catalog database state: both tables plus the AUTOINCREMENT counter. -/
structure Catalog where
  pkgs : List PkgRow
  deps : List DepRow
  next_id : Nat
deriving DecidableEq, Repr

/-- Catalog state right after the first migration: empty tables, rowid
counter at 1. -/
def emptyCatalog : Catalog := ⟨[], [], 1⟩

/-- Row match for the WHERE name = ? AND version = ? lookups. -/
def pkgMatches (nm : String) (v : Version) (r : PkgRow) : Bool :=
  r.name == nm && r.version == v

/-- Sequential insertion into dds_cat_pkg_deps, enforcing the
UNIQUE(pkg_id, dep_name) constraint exactly as the per-row INSERT
statements of catalog::store do. -/
def insertDeps : List DepRow → List DepRow → Except Errc (List DepRow)
  | table, [] => .ok table
  | table, r :: rs =>
    if table.any (fun t => t.pkg_id == r.pkg_id && t.dep_name == r.dep_name)
    then .error .constraint_violation
    else insertDeps (table ++ [r]) rs

/-- catalog::store (src/dds/catalog/catalog.cpp lines 126-188): INSERT OR
REPLACE of the package row keyed by (name, version) followed by one
INSERT per dependency, all in one transaction.  Empty auto-lib components
are stored as NULL through the CASE WHEN expressions; the valid_lm_info
CHECK constraint demands that lm_name and lm_namespace are null
together.  The REPLACE deletes the old package row (giving the new row a
fresh AUTOINCREMENT pkg_id) and, with foreign keys off, leaves any old
dependency rows orphaned. -/
def store (pkg : package_info) (c : Catalog) : Except Errc Catalog :=
  let git := pkg.remote
  let usage := git.auto_lib.getD ⟨"", ""⟩
  let lm_name : Option String := if usage.name = "" then none else some usage.name
  let lm_ns : Option String := if usage.namespace_ = "" then none else some usage.namespace_
  if lm_name.isSome != lm_ns.isSome then .error .constraint_violation
  else
    let row : PkgRow :=
      ⟨c.next_id, pkg.ident.name, pkg.ident.version, git.url, git.ref,
       lm_name, lm_ns, pkg.description⟩
    let kept := c.pkgs.filter (fun r => !(pkgMatches pkg.ident.name pkg.ident.version r))
    match insertDeps c.deps (pkg.deps.map (fun d => ⟨c.next_id, d.name, d.low, d.high⟩)) with
    | .error e => .error e
    | .ok deps2 => .ok ⟨kept ++ [row], deps2, c.next_id + 1⟩

/-- Insertion into a list of dependencies sorted by dependency name. -/
def insertByName (d : dependency) : List dependency → List dependency
  | [] => [d]
  | e :: es => if d.name ≤ e.name then d :: e :: es else e :: insertByName d es

/-- Sorting of a dependency list by dependency name, the ORDER BY dep_name
of catalog::dependencies_of. -/
def sortDeps (l : List dependency) : List dependency :=
  l.foldr insertByName []

/-- catalog::dependencies_of (src/dds/catalog/catalog.cpp lines 270-292):
dependency rows of the package row selected by (name, version), ordered
by dependency name. -/
def dependencies_of (c : Catalog) (row_id : Nat) : List dependency :=
  sortDeps ((c.deps.filter (fun d => d.pkg_id == row_id)).map
    (fun d => (⟨d.dep_name, d.low, d.high⟩ : dependency)))

/-- catalog::get (src/dds/catalog/catalog.cpp lines 190-242): point lookup
by (name, version); reconstructs the package_info from the row and its
dependency rows.  The auto-lib pair is rebuilt only when lm_name is
non-null; the valid_lm_info CHECK guarantees lm_namespace is then
non-null as well. -/
def Catalog.get (c : Catalog) (pk : package_id) : Option package_info :=
  match c.pkgs.find? (pkgMatches pk.name pk.version) with
  | none => none
  | some row =>
    some ⟨pk, dependencies_of c row.pkg_id, row.description,
          ⟨row.git_url, row.git_ref,
           match row.lm_name, row.lm_namespace with
           | some nm, some ns => some ⟨ns, nm⟩
           | _, _ => none⟩⟩

/-- Presence of a (name, version) package in the catalog. -/
def containsPkg (c : Catalog) (nm : String) (v : Version) : Bool :=
  c.pkgs.any (pkgMatches nm v)

/-! ## JSON documents

Minimal model of nlohmann/json5 document values as consumed by the
catalog importer, the metadata migration and the manifest loader.
Integral numbers suffice for the embedded code paths. -/

/-- JSON value. -/
inductive JVal where
  | null
  | bool (b : Bool)
  | num (n : Int)
  | str (s : String)
  | arr (elems : List JVal)
  | obj (entries : List (String × JVal))

/-- Object key lookup; a missing key reads as null, matching the nlohmann
bracket operator on a mutable document. -/
def jlookup (kvs : List (String × JVal)) (k : String) : JVal :=
  match kvs.find? (fun e => e.1 == k) with
  | some e => e.2
  | none => .null

/-- Key update or insertion on an object, matching assignment through the
nlohmann bracket operator. -/
def jset (kvs : List (String × JVal)) (k : String) (v : JVal) : List (String × JVal) :=
  if kvs.any (fun e => e.1 == k) then
    kvs.map (fun e => if e.1 == k then (k, v) else e)
  else kvs ++ [(k, v)]

/-- Implicit nlohmann conversion to std::string: a type error unless the
value is a string. -/
def jasString (v : JVal) : Except Errc String :=
  match v with
  | .str s => .ok s
  | _ => .error .json_type_error

/-- Modelled from the spec: lm::split_usage_string splits one
namespace/name pair at the slash (libman is not among the sources). -/
def split_usage_string (s : String) : Option lm_usage :=
  match splitOnChar '/' s.data with
  | [ns, nm] => some ⟨⟨ns⟩, ⟨nm⟩⟩
  | _ => none

/-- Modelled from the spec: semver::range::parse for the catalog import
range strings; a range string denotes the interval from its base version
up to the next major version (spec section 3), with an optional leading
caret. -/
def rangeParse (s : String) : Option (Version × Version) :=
  let core := match s.data with
    | '^' :: rest => rest
    | cs => cs
  (parseVersionChars core).map (fun v => (v, ⟨v.major + 1, 0, 0, "", ""⟩))

/-! ## Catalog JSON import (src/dds/catalog/catalog.cpp lines 294-378) -/

/-- Parses the depends object of one package entry, in entry order
(catalog.cpp lines 330-350). -/
def importDepsEntries (pkg_name vstr : String) :
    List (String × JVal) → Except Errc (List dependency)
  | [] => .ok []
  | (dn, dv) :: rest =>
    match dv with
    | .str s =>
      match rangeParse s with
      | some (lo, hi) =>
        match importDepsEntries pkg_name vstr rest with
        | .ok t => .ok (⟨dn, lo, hi⟩ :: t)
        | .error e => .error e
      | none => .error .invalid_range
    | _ => .error (.invalid_catalog_json
        ("/packages/" ++ pkg_name ++ "/" ++ vstr ++ "/depends/" ++ dn ++ " must be a string"))

/-- The depends member of a package entry: absent (null) means no
dependencies, otherwise it must be an object. -/
def importDeps (pkg_name vstr : String) (dj : JVal) : Except Errc (List dependency) :=
  match dj with
  | .null => .ok []
  | .obj dkvs => importDepsEntries pkg_name vstr dkvs
  | _ => .error (.invalid_catalog_json
      ("/packages/" ++ pkg_name ++ "/" ++ vstr ++ "/depends must be an object"))

/-- Import of a single version entry of one package (catalog.cpp lines
324-375): parse the version key, require an object, read depends, git
remote and description, then store. -/
def importOneVersion (c : Catalog) (nm vstr : String) (pinfo : JVal) :
    Except Errc Catalog :=
  match Version.parse vstr with
  | none => .error .invalid_semver
  | some ver =>
    match pinfo with
    | .obj fields =>
      match importDeps nm vstr (jlookup fields "depends") with
      | .error e => .error e
      | .ok deps =>
        match jlookup fields "git" with
        | .null => .error (.no_catalog_remote_info
            ("No remote info for /packages/" ++ nm ++ "/" ++ vstr))
        | .obj gkvs =>
          (match jasString (jlookup gkvs "url") with
           | .error e => .error e
           | .ok url =>
             match jasString (jlookup gkvs "ref") with
             | .error e => .error e
             | .ok ref =>
               let autolibE : Except Errc (Option lm_usage) :=
                 match jlookup gkvs "auto-lib" with
                 | .null => .ok none
                 | j =>
                   match jasString j with
                   | .error e => .error e
                   | .ok s =>
                     match split_usage_string s with
                     | some u => .ok (some u)
                     | none => .error .invalid_usage_string
               match autolibE with
               | .error e => .error e
               | .ok autolib =>
                 match jlookup fields "description" with
                 | .null => store ⟨⟨nm, ver⟩, deps, "", ⟨url, ref, autolib⟩⟩ c
                 | .str d => store ⟨⟨nm, ver⟩, deps, d, ⟨url, ref, autolib⟩⟩ c
                 | _ => .error (.invalid_catalog_json "`description` must be a string"))
        | _ => .error (.invalid_catalog_json "`git` must be an object")
    | _ => .error (.invalid_catalog_json
        ("/packages/" ++ nm ++ "/" ++ vstr ++ " must be an object"))

/-- Iterates the version map of one package. -/
def importVersions (c : Catalog) (nm : String) :
    List (String × JVal) → Except Errc Catalog
  | [] => .ok c
  | (vstr, pinfo) :: rest =>
    match importOneVersion c nm vstr pinfo with
    | .error e => .error e
    | .ok c2 => importVersions c2 nm rest

/-- Iterates the packages object. -/
def importPackages (c : Catalog) : List (String × JVal) → Except Errc Catalog
  | [] => .ok c
  | (nm, vmap) :: rest =>
    match vmap with
    | .obj versions =>
      (match importVersions c nm versions with
       | .error e => .error e
       | .ok c2 => importPackages c2 rest)
    | _ => .error (.invalid_catalog_json ("/packages/" ++ nm ++ " must be an object"))

/-- catalog::import_json_str (catalog.cpp lines 304-378): top-level
validation of the document, then a single transaction around all package
stores.  The input is the already-parsed document root. -/
def import_json_str (c : Catalog) (root : JVal) : Except Errc Catalog :=
  match root with
  | .obj kvs =>
    (match jlookup kvs "version" with
     | .num v =>
       if v ≤ 1 then
         match jlookup kvs "packages" with
         | .obj plist => importPackages c plist
         | _ => .error (.invalid_catalog_json "/packages must be an object")
       else .error (.invalid_catalog_json
         "/version is too new. We don't know how to parse this.")
     | _ => .error (.invalid_catalog_json "/version must be an integral value"))
  | _ => .error (.invalid_catalog_json "Root of JSON must be an object (key-value mapping)")

/-- Database state after an import attempt: the transaction guard commits
the new state on success and rolls back to the prior state when any step
throws. -/
def import_result (c : Catalog) (root : JVal) : Catalog :=
  match import_json_str c root with
  | .ok c2 => c2
  | .error _ => c

/-! ## Catalog metadata migration (src/dds/catalog/catalog.cpp lines 68-121) -/

/-- The current catalog schema version. -/
def current_database_version : Int := 1

/-- ensure_migrated (catalog.cpp lines 68-102) acting on the parsed
dds_cat_meta document: reject non-object metadata and non-integral
versions as corrupted, reject versions above the current one as too new,
otherwise migrate forward and write back version 1.  The table creation
performed by migrate_repodb_1 is outside the metadata and not modelled. -/
def ensure_migrated (meta : JVal) : Except Errc JVal :=
  match meta with
  | .obj kvs =>
    (match jlookup kvs "version" with
     | .num v =>
       if v > current_database_version then .error .catalog_too_new
       else .ok (.obj (jset kvs "version" (.num 1)))
     | _ => .error .corrupted_catalog_db)
  | _ => .error .corrupted_catalog_db

/-- catalog::open (catalog.cpp lines 106-121): run the migration, turning
only sqlite exceptions into corrupted_catalog_db; dds error kinds such as
catalog_too_new pass through unchanged. -/
def catalog_open_meta (meta : JVal) : Except Errc JVal :=
  match ensure_migrated meta with
  | .ok m => .ok m
  | .error e => if e = .sqlite3_error then .error .corrupted_catalog_db else .error e

/-- Metadata state after an open attempt: the transaction guard of
ensure_migrated rolls the write-back of version 1 back when the migration
throws. -/
def meta_after_open (meta : JVal) : JVal :=
  match ensure_migrated meta with
  | .ok m => m
  | .error _ => meta

/-! ## Package manifests (src/dds/package/manifest.cpp) -/

/-- Test driver selection of a package manifest. -/
inductive test_lib where
  | catch_
  | catch_main
deriving DecidableEq, Repr

/-- In-tree package manifest. -/
structure package_manifest where
  pkg_id : package_id
  namespace_ : String
  dependencies : List dependency
  test_driver : Option test_lib
deriving DecidableEq, Repr

/-- Default-initialized manifest, the starting state of both loaders. -/
def package_manifest.init : package_manifest :=
  ⟨⟨"", Version.default0⟩, "", [], none⟩

/-- The next major version after v, used when a single low version
expands to the half-open interval [low, next_major(low)). -/
def nextMajor (v : Version) : Version := ⟨v.major + 1, 0, 0, "", ""⟩

/-- Modelled from the spec: semver::range::parse_restricted for the
manifest depends values; same restricted shape as the catalog range
strings. -/
def rangeParseRestricted (s : String) : Option (Version × Version) :=
  let core := match s.data with
    | '^' :: rest => rest
    | cs => cs
  (parseVersionChars core).map (fun v => (v, nextMajor v))

/-- Modelled from the spec: dependency::parse_depends_string parses
name@low into the dependency interval [low, next_major(low)). -/
def parse_depends_string (s : String) : Option dependency :=
  let nm := s.data.takeWhile (fun c => c != '@')
  match s.data.dropWhile (fun c => c != '@') with
  | '@' :: rest => (parseVersionChars rest).map (fun v => ⟨⟨nm⟩, v, nextMajor v⟩)
  | _ => none

/-- The depends mapping of a JSON manifest, processed in entry order
(manifest.cpp lines 109-131). -/
def manifestDepsEntries : List (String × JVal) → Except Errc (List dependency)
  | [] => .ok []
  | (dn, rv) :: rest =>
    match rv with
    | .str s =>
      (match rangeParseRestricted s with
       | some (lo, hi) =>
         match manifestDepsEntries rest with
         | .ok ds => .ok (⟨dn, lo, hi⟩ :: ds)
         | .error e => .error e
       | none => .error (.invalid_version_range_string
           ("Invalid version range string '" ++ s ++ "' in dependency declaration for '"
             ++ dn ++ "'")))
    | _ => .error (.invalid_pkg_manifest
        ("Dependency for '" ++ dn ++ "' must be a range string"))

/-- The key dispatch of the semester::decompose mapping in
package_manifest::load_from_file (manifest.cpp lines 83-152) for one
document entry: apply the handler of the key to the manifest being
accumulated, or reject. -/
def manifestStep (ret : package_manifest) (k : String) (v : JVal) :
    Except Errc package_manifest :=
  if k = "$schema" then .ok ret
  else if k = "name" then
    match v with
    | .str s => .ok { ret with pkg_id := { ret.pkg_id with name := s } }
    | _ => .error (.invalid_pkg_manifest "`name` must be a string")
  else if k = "namespace" then
    match v with
    | .str s => .ok { ret with namespace_ := s }
    | _ => .error (.invalid_pkg_manifest "`namespace` must be a string")
  else if k = "version" then
    match v with
    | .str s =>
      (match Version.parse s with
       | some ver => .ok { ret with pkg_id := { ret.pkg_id with version := ver } }
       | none => .error .invalid_semver)
    | _ => .error (.invalid_pkg_manifest "`version` must be a string")
  else if k = "depends" then
    match v with
    | .obj dkvs =>
      (match manifestDepsEntries dkvs with
       | .ok ds => .ok { ret with dependencies := ret.dependencies ++ ds }
       | .error e => .error e)
    | _ => .error (.invalid_pkg_manifest
        "`depends` must be a mapping between package names and version ranges")
  else if k = "test_driver" then
    match v with
    | .str s =>
      if s = "Catch-Main" then .ok { ret with test_driver := some .catch_main }
      else if s = "Catch" then .ok { ret with test_driver := some .catch_ }
      else .error (.unknown_test_driver ("Unknown 'test_driver' '" ++ s ++ "'"))
    | _ => .error (.invalid_pkg_manifest "`test_driver` must be a string")
  else .error (.invalid_pkg_manifest ("Unknown key `" ++ k ++ "` in package manifest"))

/-- The decompose mapping walks the document entries in order,
accumulating into the manifest and stopping at the first rejection. -/
def manifestFold (ret : package_manifest) :
    List (String × JVal) → Except Errc package_manifest
  | [] => .ok ret
  | (k, v) :: rest =>
    match manifestStep ret k v with
    | .ok r2 => manifestFold r2 rest
    | .error e => .error e

/-- package_manifest::load_from_file (manifest.cpp lines 73-167) on the
parsed JSON5 document: the root must be an object, the entries are
decomposed in order, then name and namespace are required to be
non-empty. -/
def load_from_file (data : JVal) : Except Errc package_manifest :=
  match data with
  | .obj entries =>
    (match manifestFold package_manifest.init entries with
     | .error e => .error e
     | .ok ret =>
       if ret.pkg_id.name = "" then
         .error (.invalid_pkg_manifest "The 'name' field is required.")
       else if ret.namespace_ = "" then
         .error (.invalid_pkg_manifest "The 'namespace'` field is required.")
       else .ok ret)
  | _ => .error (.invalid_pkg_manifest "Root value must be an object")

/-- First value of a key in a legacy key-value manifest. -/
def slookup (kvs : List (String × String)) (k : String) : Option String :=
  (kvs.find? (fun e => e.1 == k)).map (fun e => e.2)

/-- The Test-Driver validation of the legacy loader (manifest.cpp lines
45-58). -/
def parse_test_driver : Option String → Except Errc (Option test_lib)
  | none => .ok none
  | some s =>
    if s = "Catch-Main" then .ok (some .catch_main)
    else if s = "Catch" then .ok (some .catch_)
    else .error (.unknown_test_driver ("Unknown 'test_driver' '" ++ s ++ "'"))

/-- Parses every accumulated Depends value. -/
def parse_depends_list : List String → Except Errc (List dependency)
  | [] => .ok []
  | s :: rest =>
    match parse_depends_string s with
    | some d =>
      (match parse_depends_list rest with
       | .ok ds => .ok (d :: ds)
       | .error e => .error e)
    | none => .error .invalid_range

/-- package_manifest::load_from_dds_file (manifest.cpp lines 18-71) on the
key-value pairs produced by lm::parse_file: reject unknown keys, read
Name and Version (required), Namespace and Test-Driver (optional) and all
Depends values; an absent or empty Namespace defaults to the package
name.  The libman readers are not among the sources and are modelled from
the spec. -/
def load_from_dds_file (kvs : List (String × String)) : Except Errc package_manifest :=
  if kvs.any (fun e =>
      !(["Name", "Namespace", "Version", "Depends", "Test-Driver"].contains e.1)) then
    .error (.unknown_key "Unknown key in package manifest")
  else
    match slookup kvs "Name" with
    | none => .error (.missing_required_key "Name")
    | some nm =>
      match slookup kvs "Version" with
      | none => .error (.missing_required_key "Version")
      | some version_str =>
        if nm = "" then
          .error (.invalid_pkg_name "'Name' field may not be an empty string")
        else if version_str = "" then
          .error (.invalid_version_string "'Version' field may not be an empty string")
        else
          match parse_test_driver (slookup kvs "Test-Driver") with
          | .error e => .error e
          | .ok td =>
            let ns0 := (slookup kvs "Namespace").getD ""
            let ns := if ns0 = "" then nm else ns0
            match Version.parse version_str with
            | none => .error .invalid_semver
            | some ver =>
              match parse_depends_list ((kvs.filter (fun e => e.1 == "Depends")).map (fun e => e.2)) with
              | .error e => .error e
              | .ok ds => .ok ⟨⟨nm, ver⟩, ns, ds, td⟩

/-! ## Manifest discovery (manifest.cpp lines 169-199) -/

/-- Abstract directory: which candidate files exist, and the parsed
content each one would load as. -/
structure Dir where
  has_file : String → Bool
  json_data : String → JVal
  dds_kvs : String → List (String × String)

/-- The candidate manifest names probed before the legacy name. -/
def manifest_candidates : List String := ["package.json5", "package.jsonc", "package.json"]

/-- package_manifest::find_in_directory: first JSON-style candidate that
exists, with package.dds as the legacy fallback. -/
def find_in_directory (d : Dir) : Option String :=
  match manifest_candidates.find? d.has_file with
  | some c => some c
  | none => if d.has_file "package.dds" then some "package.dds" else none

/-- package_manifest::load_from_directory: empty result when no manifest
file is found, otherwise dispatch on the extension. -/
def load_from_directory (d : Dir) : Except Errc (Option package_manifest) :=
  match find_in_directory d with
  | none => .ok none
  | some f =>
    if f = "package.dds" then (load_from_dds_file (d.dds_kvs f)).map some
    else (load_from_file (d.json_data f)).map some

/-! ## File-deps records and the rebuild decision
(src/dds/build/plan/compile_exec.cpp) -/

/-- FileDepsRecord: inputs, quoted command and captured compiler output
recorded for an output file. -/
structure file_deps_info where
  output : String
  inputs : List String
  command : String
  command_output : String
deriving DecidableEq, Repr

/-- Result of get_rebuild_info: prior command and the recorded inputs
whose mtime is strictly newer than the output. -/
structure rebuild_info where
  previous_command : String
  newer_inputs : List String
deriving DecidableEq, Repr

/-- Abstract filesystem view: existence and modification times. -/
structure FSState where
  file_present : String → Bool
  mtime : String → Int

/-- The file-deps database keyed by output path. -/
def DepsDb : Type := String → Option file_deps_info

/-- Modelled from the spec: get_rebuild_info (spec section 4.5; the
file_deps sources are not under src/) returns the prior command (empty
when nothing is recorded) and those recorded inputs whose mtime is
strictly greater than the mtime of the output. -/
def get_rebuild_info (db : DepsDb) (fs : FSState) (output : String) : rebuild_info :=
  match db output with
  | none => ⟨"", []⟩
  | some r => ⟨r.command, r.inputs.filter (fun i => fs.mtime output < fs.mtime i)⟩

/-- Modelled from the spec: quote_command renders a command vector as one
fully quoted string (dds/proc.hpp is not among the sources). -/
def quote_command (cmd : List String) : String :=
  ⟨joinChar ' ' (cmd.map (fun a =>
    if a.data.any (fun c => c == ' ') then '"' :: a.data ++ ['"'] else a.data))⟩

/-- The slice of compile_file_full that the rebuild decision reads: the
object file path and the concrete command vector. -/
structure compile_file_lite where
  object_file_path : String
  command : List String
deriving DecidableEq, Repr

/-- should_compile (compile_exec.cpp lines 210-231): recompile when the
output is missing, no prior command is recorded, some input is newer, or
the quoted command changed. -/
def should_compile (comp : compile_file_lite) (db : DepsDb) (fs : FSState) : Bool :=
  if !(fs.file_present comp.object_file_path) then true
  else
    let rb := get_rebuild_info db fs comp.object_file_path
    if rb.previous_command = "" then true
    else if !rb.newer_inputs.isEmpty then true
    else if quote_command comp.command != rb.previous_command then true
    else false

/-! ## MSVC dependency parsing inside do_compile
(compile_exec.cpp lines 144-161) -/

/-- Modelled from the spec: parse_msvc_output_for_deps (spec section 4.6;
the file_deps sources are not under src/) walks the compiler output line
by line; lines carrying the include-note marker are stripped from the
output and contribute inputs, all other lines remain in the cleaned
output. -/
def parse_msvc_output_for_deps (output : String) (marker : String) :
    List String × String :=
  let lines := splitOnChar '\n' output.data
  let mk := marker.data
  (lines.filterMap (fun l =>
      if isPrefixChars mk l then some (String.mk (trimChars (l.drop mk.length))) else none),
   String.mk (joinChar '\n' (lines.filter (fun l => !(isPrefixChars mk l)))))

/-- The MSVC branch of do_compile (compile_exec.cpp lines 144-161): parse
the include notes out of the compiler output; only when at least one
input was parsed, record the deps, appending the main source file as an
input since /showIncludes does not list it. -/
def do_compile_msvc_deps (compiler_output source_path object_path : String)
    (command : List String) : Option file_deps_info :=
  let msvc := parse_msvc_output_for_deps compiler_output "Note: including file:"
  if !msvc.1.isEmpty then
    some ⟨object_path, msvc.1 ++ [source_path], quote_command command, msvc.2⟩
  else none

/-! ## The parallel compile executor (compile_exec.cpp lines 24-74 and
235-273)

The thread pool of parallel_run is modelled two ways.  The job-pulling
discipline, which is scheduler dependent, is a step relation over the
shared state (remaining work and recorded exceptions); each step is one
worker holding the mutex: a job may only be pulled while the exception
list is empty.  The post-join phase, which is sequential code, is a
function: each recorded exception is rethrown, caught and logged, and
parallel_run returns whether the exception list was empty.  A job is
abstracted to its outcome, ok or an error. -/

/-- Outcome-labelled job. -/
def Job : Type := Except String Unit

/-- Shared state of the pool: jobs not yet pulled and the exception
list. -/
structure PoolState where
  remaining : List Job
  exceptions : List String

/-- One lock-protected worker step: a pull happens only when no exception
has been recorded; a failing job appends its exception under the lock. -/
inductive PoolStep : PoolState → PoolState → Prop where
  | pull_ok : ∀ rest, PoolStep ⟨.ok () :: rest, []⟩ ⟨rest, []⟩
  | pull_err : ∀ e rest, PoolStep ⟨.error e :: rest, []⟩ ⟨rest, [e]⟩

/-- The run_one loop of a single worker over the job sequence: stop when
an exception is already recorded, otherwise run the next job and record
its failure, stopping after a failure of its own. -/
def run_one_loop : List Job → List String → List String
  | [], excs => excs
  | j :: rest, excs =>
    if excs.isEmpty then
      match j with
      | .ok _ => run_one_loop rest excs
      | .error e => excs ++ [e]
    else excs

/-- parallel_run after the join (compile_exec.cpp lines 63-73): every
recorded exception is rethrown, caught and logged; the return value is
whether no exception was recorded.  The components are the returned flag
and the logged messages. -/
def parallel_run_model (items : List Job) : Bool × List String :=
  let excs := run_one_loop items []
  (excs.isEmpty, excs)

/-- dds::detail::compile_all (compile_exec.cpp lines 235-273) as observed
by its caller: the error channel of the codomain stands for a C++
exception escaping the call; the function returns the okay flag of
parallel_run and never uses the error channel. -/
def compile_all_model (items : List Job) : Except String Bool :=
  .ok (parallel_run_model items).1

/-- The behavior the spec ascribes to compile_all: the first recorded
exception is rethrown from the join and propagates to the caller.  Stated
as a second definition following the words of the spec, for comparison
with the model of the source. -/
def compile_all_spec_behavior (items : List Job) : Except String Bool :=
  match run_one_loop items [] with
  | [] => .ok true
  | e :: _ => .error e

/-!
## Theorems
-/


/-- Claim C3: for every compile job, should_compile returns true if and
only if the output object file does not exist, no prior command is
recorded in the file-deps database for that output (an absent record
reads back as the empty previous command, and recorded commands are
non-empty), some recorded input has an mtime strictly newer than the
output, or the current quoted command differs from the stored command
string; otherwise the compile is skipped. -/
theorem should_compile_iff_stale (comp : compile_file_lite) (db : DepsDb) (fs : FSState)
    (hdb : ∀ p r, db p = some r → r.command ≠ "") :
    should_compile comp db fs = true ↔
      (fs.file_present comp.object_file_path = false
        ∨ db comp.object_file_path = none
        ∨ (∃ r, db comp.object_file_path = some r
            ∧ ∃ i ∈ r.inputs, fs.mtime comp.object_file_path < fs.mtime i)
        ∨ quote_command comp.command
            ≠ (get_rebuild_info db fs comp.object_file_path).previous_command) := by
  cases hfp : fs.file_present comp.object_file_path with
  | false =>
    have hL : should_compile comp db fs = true := by
      simp [should_compile, hfp]
    exact iff_of_true hL (Or.inl rfl)
  | true =>
    cases hdbv : db comp.object_file_path with
    | none =>
      have hL : should_compile comp db fs = true := by
        simp [should_compile, get_rebuild_info, hfp, hdbv]
      exact iff_of_true hL (Or.inr (Or.inl rfl))
    | some r =>
      have hcmd := hdb _ _ hdbv
      have hrb : get_rebuild_info db fs comp.object_file_path
          = ⟨r.command, r.inputs.filter
              (fun i => decide (fs.mtime comp.object_file_path < fs.mtime i))⟩ := by
        simp [get_rebuild_info, hdbv]
      by_cases hflt : r.inputs.filter
          (fun i => decide (fs.mtime comp.object_file_path < fs.mtime i)) = []
      · have hnone : ∀ i ∈ r.inputs, ¬ fs.mtime comp.object_file_path < fs.mtime i := by
          intro i hi
          simpa using List.filter_eq_nil_iff.mp hflt i hi
        by_cases hqc : quote_command comp.command = r.command
        · have hL : should_compile comp db fs = false := by
            simp [should_compile, hfp, hrb, hflt, hcmd, hqc]
          refine iff_of_false (by simp [hL]) ?_
          rintro (h | h | ⟨r2, hr2, i, hi, hlt⟩ | h)
          · exact Bool.noConfusion h
          · exact Option.noConfusion h
          · injection hr2 with hr2
            subst hr2
            exact hnone i hi hlt
          · rw [hrb] at h
            exact h hqc
        · have hL : should_compile comp db fs = true := by
            simp [should_compile, hfp, hrb, hflt, hcmd, bne_iff_ne, hqc]
          refine iff_of_true hL (Or.inr (Or.inr (Or.inr ?_)))
          rw [hrb]
          exact hqc
      · obtain ⟨i, hif⟩ := List.exists_mem_of_ne_nil _ hflt
        have hmem := List.mem_filter.mp hif
        have hL : should_compile comp db fs = true := by
          simp only [should_compile, hfp, hrb, Bool.not_true, Bool.false_eq_true,
            if_false, hcmd, if_neg hcmd]
          have : (r.inputs.filter
              (fun i => decide (fs.mtime comp.object_file_path < fs.mtime i))).isEmpty
              = false := by
            cases hv : List.isEmpty (r.inputs.filter
                (fun i => decide (fs.mtime comp.object_file_path < fs.mtime i)))
            · rfl
            · exact absurd (List.isEmpty_iff.mp hv) hflt
          simp [this]
        refine iff_of_true hL (Or.inr (Or.inr (Or.inl ⟨r, rfl, i, hmem.1, ?_⟩)))
        simpa using hmem.2

/-- Witness for claim C3 at a concrete job, database and filesystem. -/
theorem should_compile_iff_stale_witness :
    should_compile ⟨"a.o", ["cc"]⟩ (fun _ => none) ⟨fun _ => false, fun _ => 0⟩ = true :=
  (should_compile_iff_stale ⟨"a.o", ["cc"]⟩ (fun _ => none) ⟨fun _ => false, fun _ => 0⟩
    (fun _ _ h => Option.noConfusion h)).mpr (Or.inl rfl)

/-- Claim C6, counterexample: when a worker records an exception,
compile_all returns normally with false after logging the exception; it
does not rethrow the first recorded exception to its caller, contrary to
the behavior stated by the spec. -/
theorem compile_executor_error_counterexample :
    compile_all_model [Except.error "boom"] = .ok false
      ∧ compile_all_model [Except.error "boom"]
          ≠ compile_all_spec_behavior [Except.error "boom"] := by
  constructor
  · rfl
  · intro h
    exact Except.noConfusion h

/-- Claim C6, amended: when any worker records an exception, no further
job is pulled from the shared queue (a pull step requires the exception
list to be empty); after joining all workers, every recorded exception is
caught and logged and compile_all returns false to its caller instead of
rethrowing. -/
theorem compile_executor_error_handling :
    (∀ S S2, PoolStep S S2 → S.exceptions = [])
      ∧ (∀ items e, compile_all_model items ≠ .error e)
      ∧ (∀ items, compile_all_model items
          = .ok ((run_one_loop items []).isEmpty)
          ∧ (parallel_run_model items).2 = run_one_loop items []) := by
  refine ⟨?_, ?_, ?_⟩
  · intro S S2 h
    cases h <;> rfl
  · intro items e h
    exact Except.noConfusion h
  · intro items
    exact ⟨rfl, rfl⟩

/-- Witness for claim C6 at a concrete pool step and job list. -/
theorem compile_executor_error_handling_witness :
    (PoolState.mk [Except.ok ()] []).exceptions = []
      ∧ compile_all_model [Except.error "boom"] ≠ .error "boom" :=
  ⟨compile_executor_error_handling.1 ⟨[Except.ok ()], []⟩ ⟨[], []⟩ (PoolStep.pull_ok []),
   compile_executor_error_handling.2.1 [Except.error "boom"] "boom"⟩

/-- Claim C7: in MSVC deps mode, whenever do_compile produces a file-deps
record for a successful compilation, the compiled source file itself has
been appended to the input list of that record (it is the last input). -/
theorem msvc_deps_appends_source (compiler_output source_path object_path : String)
    (command : List String) (info : file_deps_info)
    (h : do_compile_msvc_deps compiler_output source_path object_path command = some info) :
    source_path ∈ info.inputs ∧ info.inputs.getLast? = some source_path := by
  simp only [do_compile_msvc_deps] at h
  split at h
  · injection h with h
    subst h
    constructor
    · exact List.mem_append.mpr (Or.inr (List.mem_singleton.mpr rfl))
    · exact List.getLast?_concat _
  · exact Option.noConfusion h

/-- Witness for claim C7 at a concrete compiler output with one include
note. -/
theorem msvc_deps_appends_source_witness :
    "a.cpp" ∈ (file_deps_info.mk "a.o" ["foo.h", "a.cpp"] "cl" "").inputs
      ∧ (file_deps_info.mk "a.o" ["foo.h", "a.cpp"] "cl" "").inputs.getLast?
          = some "a.cpp" :=
  msvc_deps_appends_source "Note: including file: foo.h" "a.cpp" "a.o" ["cl"]
    ⟨"a.o", ["foo.h", "a.cpp"], "cl", ""⟩ (by decide)

/-- Claim C8: opening a catalog database whose stored metadata version is
strictly greater than the current version 1 fails with catalog_too_new,
in particular not with corrupted_catalog_db, and the stored metadata is
left unmodified. -/
theorem catalog_open_too_new (kvs : List (String × JVal)) (v : Int)
    (hv : jlookup kvs "version" = .num v) (hgt : 1 < v) :
    catalog_open_meta (.obj kvs) = .error .catalog_too_new
      ∧ meta_after_open (.obj kvs) = .obj kvs := by
  have hm : ensure_migrated (.obj kvs) = .error .catalog_too_new := by
    simp only [ensure_migrated, hv, current_database_version]
    rw [if_pos hgt]
  refine ⟨?_, ?_⟩
  · simp [catalog_open_meta, hm]
  · simp [meta_after_open, hm]

/-- Witness for claim C8 at stored metadata version 2. -/
theorem catalog_open_too_new_witness :
    catalog_open_meta (.obj [("version", .num 2)]) = .error .catalog_too_new
      ∧ meta_after_open (.obj [("version", .num 2)]) = .obj [("version", .num 2)] :=
  catalog_open_too_new [("version", .num 2)] 2 rfl (by norm_num)

/-- Claim C10: for every directory containing none of package.json5,
package.jsonc, package.json or package.dds, load_from_directory returns
an empty optional rather than raising an error. -/
theorem load_from_directory_no_manifest (d : Dir)
    (h : ∀ c ∈ manifest_candidates ++ ["package.dds"], d.has_file c = false) :
    load_from_directory d = .ok none := by
  have h5 : d.has_file "package.json5" = false := h _ (by simp [manifest_candidates])
  have hc : d.has_file "package.jsonc" = false := h _ (by simp [manifest_candidates])
  have hj : d.has_file "package.json" = false := h _ (by simp [manifest_candidates])
  have hd : d.has_file "package.dds" = false := h _ (by simp [manifest_candidates])
  simp [load_from_directory, find_in_directory, manifest_candidates,
    List.find?, h5, hc, hj, hd]

/-- Witness for claim C10 at a directory with no files at all. -/
theorem load_from_directory_no_manifest_witness :
    load_from_directory ⟨fun _ => false, fun _ => .null, fun _ => []⟩ = .ok none :=
  load_from_directory_no_manifest ⟨fun _ => false, fun _ => .null, fun _ => []⟩
    (fun _ _ => rfl)

/-- Claim C4, counterexample: importing a document with version 2 fails
with invalid_catalog_json, not with the catalog_too_new error kind the
claim names. -/
theorem import_version_too_new_counterexample :
    import_json_str emptyCatalog (.obj [("version", .num 2), ("packages", .obj [])])
        = .error (.invalid_catalog_json
            "/version is too new. We don't know how to parse this.")
      ∧ import_json_str emptyCatalog (.obj [("version", .num 2), ("packages", .obj [])])
          ≠ .error .catalog_too_new := by
  constructor
  · rfl
  · intro h
    rw [show import_json_str emptyCatalog (.obj [("version", .num 2), ("packages", .obj [])])
        = .error (.invalid_catalog_json
            "/version is too new. We don't know how to parse this.") from rfl] at h
    injection h with h
    exact Errc.noConfusion h

/-- Claim C4, amended: for every catalog-import document whose top-level
version field is an integer greater than 1, the import fails with
invalid_catalog_json (message: /version is too new) and the catalog is
left unchanged. -/
theorem import_version_too_new (c : Catalog) (kvs : List (String × JVal)) (v : Int)
    (hv : jlookup kvs "version" = .num v) (hgt : 1 < v) :
    import_json_str c (.obj kvs)
        = .error (.invalid_catalog_json
            "/version is too new. We don't know how to parse this.")
      ∧ import_result c (.obj kvs) = c := by
  have h1 : import_json_str c (.obj kvs)
      = .error (.invalid_catalog_json
          "/version is too new. We don't know how to parse this.") := by
    simp only [import_json_str, hv]
    rw [if_neg (by omega)]
  exact ⟨h1, by simp [import_result, h1]⟩

/-- Witness for claim C4 at a concrete document with version 5. -/
theorem import_version_too_new_witness :
    import_json_str emptyCatalog (.obj [("version", .num 5)])
        = .error (.invalid_catalog_json
            "/version is too new. We don't know how to parse this.")
      ∧ import_result emptyCatalog (.obj [("version", .num 5)]) = emptyCatalog :=
  import_version_too_new emptyCatalog [("version", .num 5)] 5 rfl (by norm_num)


/-- One decompose step leaves an empty namespace field empty whenever a
namespace entry may only carry the empty string. -/
theorem manifestStep_ns_empty (ret r2 : package_manifest) (k : String) (v : JVal)
    (h0 : ret.namespace_ = "") (hk : k = "namespace" → v = JVal.str "")
    (h : manifestStep ret k v = .ok r2) : r2.namespace_ = "" := by
  simp only [manifestStep] at h
  split_ifs at h with h1 h2 h3 h4 h5 h6
  · injection h with h
    rw [← h]
    exact h0
  · split at h
    · injection h with h; rw [← h]; exact h0
    · exact Except.noConfusion h
  · have hv := hk h3
    subst hv
    injection h with h
    rw [← h]
  · split at h
    · split at h
      · injection h with h; rw [← h]; exact h0
      · exact Except.noConfusion h
    · exact Except.noConfusion h
  · split at h
    · split at h
      · injection h with h; rw [← h]; exact h0
      · exact Except.noConfusion h
    · exact Except.noConfusion h
  · split at h
    · split_ifs at h with h7 h8 <;>
        (injection h with h; rw [← h]; exact h0)
    · exact Except.noConfusion h

/-- When every namespace entry of the document carries the empty string,
the decompose fold leaves an initially empty namespace field empty. -/
theorem manifestFold_ns_empty (entries : List (String × JVal)) :
    ∀ ret m : package_manifest,
      (∀ v, ("namespace", v) ∈ entries → v = JVal.str "") →
      ret.namespace_ = "" →
      manifestFold ret entries = .ok m → m.namespace_ = "" := by
  induction entries with
  | nil =>
    intro ret m _ h0 h
    injection h with h
    rw [← h]
    exact h0
  | cons e rest ih =>
    intro ret m hns h0 h
    obtain ⟨k, v⟩ := e
    simp only [manifestFold] at h
    cases hs : manifestStep ret k v with
    | error e2 => rw [hs] at h; exact Except.noConfusion h
    | ok r2 =>
      rw [hs] at h
      have hk : k = "namespace" → v = JVal.str "" := by
        intro hkn
        subst hkn
        exact hns v (List.mem_cons_self _ _)
      exact ih r2 m (fun v hv => hns v (List.mem_cons_of_mem _ hv))
        (manifestStep_ns_empty ret r2 k v h0 hk hs) h

/-- Claim C5, counterexample: a JSON manifest with name and version but no
namespace field fails to load with invalid_pkg_manifest instead of
defaulting the namespace to the package name. -/
theorem manifest_namespace_default_counterexample :
    load_from_file (.obj [("name", .str "a"), ("version", .str "1.0.0")])
      = .error (.invalid_pkg_manifest "The 'namespace'` field is required.") := by
  rfl

/-- Claim C5, amended: the namespace-defaults-to-name rule holds only for
legacy package.dds manifests: there, an absent or empty Namespace entry
makes the loaded namespace equal the package name.  For JSON manifests,
namespace is required: when every namespace field of the document is
absent or empty, load_from_file never succeeds. -/
theorem manifest_namespace_behavior :
    (∀ kvs m, load_from_dds_file kvs = .ok m →
        (slookup kvs "Namespace").getD "" = "" → m.namespace_ = m.pkg_id.name)
      ∧ (∀ entries m, (∀ v, ("namespace", v) ∈ entries → v = JVal.str "") →
          load_from_file (.obj entries) ≠ .ok m) := by
  constructor
  · intro kvs m h hns
    simp only [load_from_dds_file] at h
    split at h
    · exact Except.noConfusion h
    · split at h
      · exact Except.noConfusion h
      · split at h
        · exact Except.noConfusion h
        · split at h
          · exact Except.noConfusion h
          · split at h
            · exact Except.noConfusion h
            · split at h
              · exact Except.noConfusion h
              · split at h
                · exact Except.noConfusion h
                · split at h
                  · exact Except.noConfusion h
                  · injection h with h
                    rw [← h]
  · intro entries m hns h
    simp only [load_from_file] at h
    split at h
    · exact Except.noConfusion h
    · next ret heq =>
      split at h
      · exact Except.noConfusion h
      · split at h
        · exact Except.noConfusion h
        · next hne =>
          exact hne (manifestFold_ns_empty entries package_manifest.init ret hns rfl heq)

/-- Witness for claim C5 at a concrete legacy manifest without Namespace
and a concrete JSON manifest without namespace. -/
theorem manifest_namespace_behavior_witness :
    ((package_manifest.mk ⟨"a", ⟨1, 0, 0, "", ""⟩⟩ "a" [] none).namespace_
        = (package_manifest.mk ⟨"a", ⟨1, 0, 0, "", ""⟩⟩ "a" [] none).pkg_id.name)
      ∧ load_from_file (.obj [("name", .str "b")])
          ≠ .ok (package_manifest.mk ⟨"b", Version.default0⟩ "b" [] none) :=
  ⟨manifest_namespace_behavior.1 [("Name", "a"), ("Version", "1.0.0")]
      (package_manifest.mk ⟨"a", ⟨1, 0, 0, "", ""⟩⟩ "a" [] none) (by rfl) rfl,
   manifest_namespace_behavior.2 [("name", .str "b")]
      (package_manifest.mk ⟨"b", Version.default0⟩ "b" [] none)
      (fun v hv => by simp at hv)⟩

/-- Digits below ten print as digit characters. -/
theorem isDigit_digitChar (d : Nat) (h : d < 10) : (digitChar d).isDigit = true := by
  interval_cases d <;> decide

/-- Printing then reading a digit below ten is the identity. -/
theorem charVal_digitChar (d : Nat) (h : d < 10) : charVal (digitChar d) = d := by
  interval_cases d <;> decide

/-- Every character of a printed number is a digit. -/
theorem natToChars_all_digit (n : Nat) : (natToChars n).all Char.isDigit = true := by
  unfold natToChars
  split
  · decide
  · rw [List.all_eq_true]
    intro c hc
    rw [List.mem_reverse] at hc
    obtain ⟨d, hd, rfl⟩ := List.mem_map.mp hc
    exact isDigit_digitChar d (Nat.digits_lt_base (by norm_num) hd)

/-- A printed number is never the empty character list. -/
theorem natToChars_ne_nil (n : Nat) : natToChars n ≠ [] := by
  unfold natToChars
  split
  · simp
  · next h =>
    simp only [ne_eq, List.reverse_eq_nil_iff, List.map_eq_nil_iff]
    exact Nat.digits_ne_nil_iff_ne_zero.mpr h

/-- Folding the printed digits back gives the base-ten value. -/
theorem foldr_charVal_ofDigits (l : List Nat) (hall : ∀ d ∈ l, d < 10) :
    l.foldr (fun d a => 10 * a + charVal (digitChar d)) 0 = Nat.ofDigits 10 l := by
  induction l with
  | nil => rfl
  | cons d l ih =>
    rw [List.foldr_cons, ih (fun x hx => hall x (List.mem_cons_of_mem _ hx)),
      Nat.ofDigits_cons, charVal_digitChar d (hall d (List.mem_cons_self _ _))]
    ring

/-- Reading back a printed natural number is the identity. -/
theorem readNat_natToChars (n : Nat) : readNat (natToChars n) = n := by
  unfold natToChars
  split
  · next h => rw [h]; decide
  · rw [readNat, List.foldl_reverse, List.foldr_map]
    rw [foldr_charVal_ofDigits _ (fun d hd => Nat.digits_lt_base (by norm_num) hd)]
    exact Nat.ofDigits_digits 10 n

/-- Parsing a printed natural number succeeds with the original value. -/
theorem parseNatChars_natToChars (n : Nat) : parseNatChars (natToChars n) = some n := by
  unfold parseNatChars
  rw [if_neg (natToChars_ne_nil n), if_pos (natToChars_all_digit n), readNat_natToChars]

/-- A printed number followed by a non-digit splits exactly at the
boundary under the digit scanner. -/
theorem digits_boundary (k : Nat) (c : Char) (hc : c.isDigit = false) (R : List Char) :
    (natToChars k ++ c :: R).takeWhile Char.isDigit = natToChars k
      ∧ (natToChars k ++ c :: R).dropWhile Char.isDigit = c :: R := by
  have hall : ∀ a ∈ natToChars k, a.isDigit := by
    intro a ha
    exact List.all_eq_true.mp (natToChars_all_digit k) a ha
  constructor
  · rw [List.takeWhile_append_of_pos hall, List.takeWhile_cons_of_neg (by simp [hc])]
    exact List.append_nil _
  · rw [List.dropWhile_append_of_pos hall, List.dropWhile_cons_of_neg (by simp [hc])]

/-- A printed number alone is consumed whole by the digit scanner. -/
theorem digits_whole (k : Nat) :
    (natToChars k).takeWhile Char.isDigit = natToChars k
      ∧ (natToChars k).dropWhile Char.isDigit = [] := by
  have hall : ∀ a ∈ natToChars k, a.isDigit := by
    intro a ha
    exact List.all_eq_true.mp (natToChars_all_digit k) a ha
  constructor
  · have := @List.takeWhile_append_of_pos _ _ _ ([] : List Char) hall
    simpa using this
  · have := @List.dropWhile_append_of_pos _ _ _ ([] : List Char) hall
    simpa using this

/-- Splitting lemma: a printed number followed by a non-digit is consumed
exactly up to the boundary by the digit scanner (take side). -/
theorem takeWhile_digits_boundary (k : Nat) (c : Char) (hc : c.isDigit = false)
    (R : List Char) :
    (natToChars k ++ c :: R).takeWhile Char.isDigit = natToChars k :=
  (digits_boundary k c hc R).1

/-- Splitting lemma: a printed number followed by a non-digit is consumed
exactly up to the boundary by the digit scanner (drop side). -/
theorem dropWhile_digits_boundary (k : Nat) (c : Char) (hc : c.isDigit = false)
    (R : List Char) :
    (natToChars k ++ c :: R).dropWhile Char.isDigit = c :: R :=
  (digits_boundary k c hc R).2

/-- A printed number alone is consumed whole (take side). -/
theorem takeWhile_digits_whole (k : Nat) :
    (natToChars k).takeWhile Char.isDigit = natToChars k :=
  (digits_whole k).1

/-- A printed number alone is consumed whole (drop side). -/
theorem dropWhile_digits_whole (k : Nat) :
    (natToChars k).dropWhile Char.isDigit = [] :=
  (digits_whole k).2

/-- A plus-free character list is consumed whole by the prerelease
scanner. -/
theorem takeWhile_ne_plus_whole (l : List Char) (h : '+' ∉ l) :
    (l.takeWhile (fun c => c != '+') = l ∧ l.dropWhile (fun c => c != '+') = []) := by
  have hall : ∀ c ∈ l, (c != '+') = true := by
    intro c hc
    simp only [bne_iff_ne, ne_eq]
    rintro rfl
    exact h hc
  constructor
  · have := @List.takeWhile_append_of_pos _ _ _ ([] : List Char) hall
    simpa using this
  · have := @List.dropWhile_append_of_pos _ _ _ ([] : List Char) hall
    simpa using this

/-- A plus-free character list followed by a plus splits exactly at the
boundary under the prerelease scanner. -/
theorem takeWhile_ne_plus_boundary (l : List Char) (h : '+' ∉ l) (R : List Char) :
    ((l ++ '+' :: R).takeWhile (fun c => c != '+') = l
      ∧ (l ++ '+' :: R).dropWhile (fun c => c != '+') = '+' :: R) := by
  have hall : ∀ c ∈ l, (c != '+') = true := by
    intro c hc
    simp only [bne_iff_ne, ne_eq]
    rintro rfl
    exact h hc
  constructor
  · rw [List.takeWhile_append_of_pos hall, List.takeWhile_cons_of_neg (by decide)]
    exact List.append_nil _
  · rw [List.dropWhile_append_of_pos hall, List.dropWhile_cons_of_neg (by decide)]

/-- Round trip of the version text: parsing the rendered form of any
version whose prerelease is free of plus signs returns the version. -/
theorem parseVersionChars_toChars (v : Version) (hpre : '+' ∉ v.prerelease.data) :
    parseVersionChars v.toChars = some v := by
  obtain ⟨M, m, p, pre, bld⟩ := v
  have hpre2 : '+' ∉ pre.data := hpre
  by_cases hp : pre = "" <;> by_cases hb : bld = ""
  · subst hp; subst hb
    simp only [Version.toChars, if_true, ite_true, List.append_nil, List.nil_append,
      List.cons_append, List.append_assoc]
    simp only [parseVersionChars,
      takeWhile_digits_boundary M '.' (by decide),
      dropWhile_digits_boundary M '.' (by decide),
      takeWhile_digits_boundary m '.' (by decide),
      dropWhile_digits_boundary m '.' (by decide),
      takeWhile_digits_whole p, dropWhile_digits_whole p,
      parseNatChars_natToChars]
  · subst hp
    simp only [Version.toChars, if_true, ite_true, if_neg hb, List.append_nil,
      List.nil_append, List.cons_append, List.append_assoc]
    simp only [parseVersionChars,
      takeWhile_digits_boundary M '.' (by decide),
      dropWhile_digits_boundary M '.' (by decide),
      takeWhile_digits_boundary m '.' (by decide),
      dropWhile_digits_boundary m '.' (by decide),
      takeWhile_digits_boundary p '+' (by decide),
      dropWhile_digits_boundary p '+' (by decide),
      parseNatChars_natToChars]
  · subst hb
    simp only [Version.toChars, if_neg hp, if_true, ite_true, List.append_nil,
      List.nil_append, List.cons_append, List.append_assoc]
    simp only [parseVersionChars,
      takeWhile_digits_boundary M '.' (by decide),
      dropWhile_digits_boundary M '.' (by decide),
      takeWhile_digits_boundary m '.' (by decide),
      dropWhile_digits_boundary m '.' (by decide),
      takeWhile_digits_boundary p '-' (by decide),
      dropWhile_digits_boundary p '-' (by decide),
      parseNatChars_natToChars,
      (takeWhile_ne_plus_whole pre.data hpre2).1,
      (takeWhile_ne_plus_whole pre.data hpre2).2]
  · simp only [Version.toChars, if_neg hp, if_neg hb, List.cons_append, List.append_assoc]
    simp only [parseVersionChars,
      takeWhile_digits_boundary M '.' (by decide),
      dropWhile_digits_boundary M '.' (by decide),
      takeWhile_digits_boundary m '.' (by decide),
      dropWhile_digits_boundary m '.' (by decide),
      takeWhile_digits_boundary p '-' (by decide),
      dropWhile_digits_boundary p '-' (by decide),
      parseNatChars_natToChars,
      (takeWhile_ne_plus_boundary pre.data hpre2 bld.data).1,
      (takeWhile_ne_plus_boundary pre.data hpre2 bld.data).2]

/-- Claim C9: for every package_id whose name is non-empty and free of
at-signs and whose version prerelease is free of plus signs, parsing the
name@version textual form produced by to_string yields the identical
package id. -/
theorem package_id_parse_to_string_roundtrip (p : package_id)
    (h1 : p.name ≠ "") (h2 : '@' ∉ p.name.data) (h3 : '+' ∉ p.version.prerelease.data) :
    package_id.parse p.to_string = some p := by
  obtain ⟨nm, v⟩ := p
  have h2b : '@' ∉ nm.data := h2
  have hall : ∀ c ∈ nm.data, (c != '@') = true := by
    intro c hc
    simp only [bne_iff_ne, ne_eq]
    rintro rfl
    exact h2b hc
  have hne : nm.data.isEmpty = false := by
    cases hd : nm.data with
    | nil =>
      exfalso
      apply h1
      cases nm
      simp_all
    | cons a l => rfl
  simp only [package_id.parse, package_id.to_string,
    List.takeWhile_append_of_pos hall, List.dropWhile_append_of_pos hall,
    @List.takeWhile_cons_of_neg _ (fun c => c != '@') '@' v.toChars (by decide),
    @List.dropWhile_cons_of_neg _ (fun c => c != '@') '@' v.toChars (by decide),
    List.append_nil, hne, Bool.false_eq_true, if_false,
    parseVersionChars_toChars v h3]
  rfl

/-- Witness for claim C9 at a concrete package id with prerelease and
build metadata. -/
theorem package_id_parse_to_string_roundtrip_witness :
    package_id.parse (package_id.to_string ⟨"foo", ⟨1, 22, 333, "rc.1", "build5"⟩⟩)
      = some ⟨"foo", ⟨1, 22, 333, "rc.1", "build5"⟩⟩ :=
  package_id_parse_to_string_roundtrip ⟨"foo", ⟨1, 22, 333, "rc.1", "build5"⟩⟩
    (by decide) (by decide) (by decide)

/-- insertDeps only succeeds by appending the new rows in order. -/
theorem insertDeps_ok_eq (rs : List DepRow) :
    ∀ table table2, insertDeps table rs = .ok table2 → table2 = table ++ rs := by
  induction rs with
  | nil =>
    intro t t2 h
    injection h with h
    simp [← h]
  | cons r rs ih =>
    intro t t2 h
    simp only [insertDeps] at h
    split at h
    · exact Except.noConfusion h
    · have := ih (t ++ [r]) t2 h
      simp [this]

/-- Nothing satisfying the predicate is found among the rows the REPLACE
kept, since those were filtered to not match. -/
theorem find?_filter_not {α} (l : List α) (p : α → Bool) :
    (l.filter (fun x => !p x)).find? p = none := by
  rw [List.find?_eq_none]
  intro x hx
  have := (List.mem_filter.mp hx).2
  simp at this
  simp [this]

/-- Reading dependency rows back into dependencies is the identity on the
rows just written. -/
theorem map_row_dep (next : Nat) (l : List dependency) :
    (l.map (fun d => (⟨next, d.name, d.low, d.high⟩ : DepRow))).map
      (fun d => (⟨d.dep_name, d.low, d.high⟩ : dependency)) = l := by
  induction l with
  | nil => rfl
  | cons d l ih =>
    cases d
    simp [ih]

/-- Point lookup on the catalog state produced by one store: the fresh row
is found, the freshly written dependency rows are exactly the ones read
back (the old rows have other ids), and they come back sorted by name. -/
theorem get_after_store (c : Catalog) (nm : String) (ver : Version)
    (deps : List dependency) (desc url ref : String) (LN LS : Option String)
    (hwf : ∀ d ∈ c.deps, d.pkg_id ≠ c.next_id) :
    Catalog.get ⟨c.pkgs.filter (fun r => !(pkgMatches nm ver r))
           ++ [⟨c.next_id, nm, ver, url, ref, LN, LS, desc⟩],
         c.deps ++ deps.map (fun d => ⟨c.next_id, d.name, d.low, d.high⟩),
         c.next_id + 1⟩ ⟨nm, ver⟩
      = some ⟨⟨nm, ver⟩, sortDeps deps, desc,
          ⟨url, ref,
           match LN, LS with
           | some a, some b => some ⟨b, a⟩
           | _, _ => none⟩⟩ := by
  have hmatch : pkgMatches nm ver (⟨c.next_id, nm, ver, url, ref, LN, LS, desc⟩ : PkgRow)
      = true := by
    simp [pkgMatches]
  have h1 : c.deps.filter (fun d => d.pkg_id == c.next_id) = [] := by
    rw [List.filter_eq_nil_iff]
    intro d hd
    simp [hwf d hd]
  have h2 : ((deps.map (fun d => (⟨c.next_id, d.name, d.low, d.high⟩ : DepRow))).filter
      (fun d => d.pkg_id == c.next_id))
      = deps.map (fun d => (⟨c.next_id, d.name, d.low, d.high⟩ : DepRow)) := by
    rw [List.filter_eq_self]
    intro r hr
    obtain ⟨d, hd, rfl⟩ := List.mem_map.mp hr
    simp
  simp only [Catalog.get, dependencies_of, List.find?_append, find?_filter_not,
    Option.none_or, List.find?_cons_of_pos _ hmatch, List.filter_append, h1, h2,
    List.nil_append, map_row_dep]

/-- Claim C1, amended: for every package_info successfully stored via
catalog::store into a catalog whose dependency rows do not collide with
the fresh AUTOINCREMENT id, and whose auto-lib, when present, has
non-empty name and namespace, a subsequent get of its id returns the same
package_info with the dependency list sorted by dependency name.  (An
auto-lib present with both components empty is stored as NULL and reads
back as absent, see the counterexample.) -/
theorem catalog_store_get_roundtrip (pkg : package_info) (c c2 : Catalog)
    (hwf : ∀ d ∈ c.deps, d.pkg_id ≠ c.next_id)
    (hlm : pkg.remote.auto_lib = none
        ∨ ∃ u, pkg.remote.auto_lib = some u ∧ u.name ≠ "" ∧ u.namespace_ ≠ "")
    (hst : store pkg c = .ok c2) :
    Catalog.get c2 pkg.ident
      = some ⟨pkg.ident, sortDeps pkg.deps, pkg.description, pkg.remote⟩ := by
  obtain ⟨⟨nm, ver⟩, deps, desc, url, ref, alib⟩ := pkg
  simp only [store] at hst
  cases alib with
  | none =>
    split at hst
    · split at hst
      · split at hst
        · exact Except.noConfusion hst
        · split at hst
          · exact Except.noConfusion hst
          · next deps2 heq =>
            injection hst with hst
            subst hst
            obtain rfl := insertDeps_ok_eq _ _ _ heq
            exact get_after_store c nm ver deps desc url ref none none hwf
      · next h => exact absurd rfl h
    · next h => exact absurd rfl h
  | some u =>
    obtain ⟨uns, unm⟩ := u
    have hu : unm ≠ "" ∧ uns ≠ "" := by
      rcases hlm with h | ⟨u2, h, hn, hs⟩
      · exact absurd h (by simp)
      · have h2 : some (⟨uns, unm⟩ : lm_usage) = some u2 := h
        injection h2 with h2
        rw [← h2] at hn hs
        exact ⟨hn, hs⟩
    split at hst
    · next h => exact absurd h hu.1
    · split at hst
      · next h => exact absurd h hu.2
      · split at hst
        · next h =>
          exfalso
          simp at h
        · split at hst
          · exact Except.noConfusion hst
          · next deps2 heq =>
            injection hst with hst
            subst hst
            obtain rfl := insertDeps_ok_eq _ _ _ heq
            exact get_after_store c nm ver deps desc url ref (some unm) (some uns) hwf

/-- Claim C1, counterexample: a package whose auto-lib is present but has
empty name and namespace stores successfully, yet reads back with an
absent auto-lib, so get does not return a package_info equal to the one
stored. -/
theorem catalog_store_get_counterexample :
    store ⟨⟨"a", ⟨1, 0, 0, "", ""⟩⟩, [], "", ⟨"u", "r", some ⟨"", ""⟩⟩⟩ emptyCatalog
        = .ok ⟨[⟨1, "a", ⟨1, 0, 0, "", ""⟩, "u", "r", none, none, ""⟩], [], 2⟩
      ∧ Catalog.get ⟨[⟨1, "a", ⟨1, 0, 0, "", ""⟩, "u", "r", none, none, ""⟩], [], 2⟩
            ⟨"a", ⟨1, 0, 0, "", ""⟩⟩
          ≠ some ⟨⟨"a", ⟨1, 0, 0, "", ""⟩⟩, [], "", ⟨"u", "r", some ⟨"", ""⟩⟩⟩ :=
  ⟨rfl, by decide⟩

/-- Witness for claim C1 at a concrete package with one dependency and a
non-empty auto-lib pair stored into the empty catalog. -/
theorem catalog_store_get_roundtrip_witness :
    Catalog.get ⟨[⟨1, "w", ⟨1, 2, 3, "", ""⟩, "u", "r", some "nm", some "ns", "d"⟩],
                 [⟨1, "b", ⟨1, 0, 0, "", ""⟩, ⟨2, 0, 0, "", ""⟩⟩], 2⟩
        ⟨"w", ⟨1, 2, 3, "", ""⟩⟩
      = some ⟨⟨"w", ⟨1, 2, 3, "", ""⟩⟩,
              sortDeps [⟨"b", ⟨1, 0, 0, "", ""⟩, ⟨2, 0, 0, "", ""⟩⟩], "d",
              ⟨"u", "r", some ⟨"ns", "nm"⟩⟩⟩ :=
  catalog_store_get_roundtrip
    ⟨⟨"w", ⟨1, 2, 3, "", ""⟩⟩, [⟨"b", ⟨1, 0, 0, "", ""⟩, ⟨2, 0, 0, "", ""⟩⟩], "d",
     ⟨"u", "r", some ⟨"ns", "nm"⟩⟩⟩
    emptyCatalog
    ⟨[⟨1, "w", ⟨1, 2, 3, "", ""⟩, "u", "r", some "nm", some "ns", "d"⟩],
     [⟨1, "b", ⟨1, 0, 0, "", ""⟩, ⟨2, 0, 0, "", ""⟩⟩], 2⟩
    (fun d hd => absurd hd (List.not_mem_nil d))
    (Or.inr ⟨⟨"ns", "nm"⟩, rfl, by decide, by decide⟩) rfl

/-- A package row matching the lookup key carries exactly that name and
version. -/
theorem pkgMatches_fields {n : String} {v : Version} {r : PkgRow}
    (h : pkgMatches n v r = true) : r.name = n ∧ r.version = v := by
  simp [pkgMatches] at h
  exact h

/-- Whatever the auto-lib fields, a successful store replaces the rows of
its own (name, version) with one fresh row carrying that identity. -/
theorem store_ok_shape (q : package_info) (c c2 : Catalog) (hst : store q c = .ok c2) :
    ∃ row : PkgRow, row.name = q.ident.name ∧ row.version = q.ident.version ∧
      c2.pkgs = c.pkgs.filter (fun r => !(pkgMatches q.ident.name q.ident.version r))
        ++ [row] := by
  simp only [store] at hst
  split at hst
  all_goals split at hst
  all_goals first
    | exact Except.noConfusion hst
    | { split at hst
        · exact Except.noConfusion hst
        · split at hst
          · exact Except.noConfusion hst
          · injection hst with hst
            exact ⟨_, rfl, rfl, by rw [← hst]⟩ }

/-- A successful store preserves the presence of every (name, version). -/
theorem store_preserves (q : package_info) (c c2 : Catalog) (n : String) (v : Version)
    (hst : store q c = .ok c2) (hc : containsPkg c n v = true) :
    containsPkg c2 n v = true := by
  obtain ⟨row, hn, hv, hp⟩ := store_ok_shape q c c2 hst
  rw [containsPkg] at hc
  obtain ⟨r, hr, hmr⟩ := List.any_eq_true.mp hc
  rw [containsPkg, hp, List.any_append]
  by_cases hq : pkgMatches q.ident.name q.ident.version r = true
  · have h1 := pkgMatches_fields hq
    have h2 := pkgMatches_fields hmr
    have e1 : row.name = n := by rw [hn, ← h1.1, h2.1]
    have e2 : row.version = v := by rw [hv, ← h1.2, h2.2]
    have hrow : pkgMatches n v row = true := by simp [pkgMatches, e1, e2]
    simp [hrow]
  · have hkept : r ∈ c.pkgs.filter
        (fun x => !(pkgMatches q.ident.name q.ident.version x)) :=
      List.mem_filter.mpr ⟨hr, by simp [hq]⟩
    have hany : (c.pkgs.filter
        (fun x => !(pkgMatches q.ident.name q.ident.version x))).any (pkgMatches n v)
        = true :=
      List.any_eq_true.mpr ⟨r, hkept, hmr⟩
    simp [hany]

/-- A successful store makes its own package present. -/
theorem store_contains_self (q : package_info) (c c2 : Catalog)
    (hst : store q c = .ok c2) :
    containsPkg c2 q.ident.name q.ident.version = true := by
  obtain ⟨row, hn, hv, hp⟩ := store_ok_shape q c c2 hst
  rw [containsPkg, hp, List.any_append]
  have hrow : pkgMatches q.ident.name q.ident.version row = true := by
    simp [pkgMatches, hn, hv]
  simp [hrow]

/-- One version-entry import preserves presence. -/
theorem importOneVersion_preserves (c c2 : Catalog) (nm vstr : String) (pinfo : JVal)
    (n : String) (v : Version)
    (h : importOneVersion c nm vstr pinfo = .ok c2)
    (hc : containsPkg c n v = true) : containsPkg c2 n v = true := by
  simp only [importOneVersion] at h
  repeat' split at h
  all_goals first
    | exact Except.noConfusion h
    | exact store_preserves _ _ _ _ _ h hc

/-- A successful version-entry import stores its package. -/
theorem importOneVersion_stores (c c2 : Catalog) (nm vstr : String) (pinfo : JVal)
    (ver : Version)
    (h : importOneVersion c nm vstr pinfo = .ok c2)
    (hp : Version.parse vstr = some ver) :
    containsPkg c2 nm ver = true := by
  simp only [importOneVersion, hp] at h
  repeat' split at h
  all_goals first
    | exact Except.noConfusion h
    | exact store_contains_self _ _ _ h

/-- Importing a version map preserves presence. -/
theorem importVersions_preserves (nm : String) (entries : List (String × JVal)) :
    ∀ c c2 n v, importVersions c nm entries = .ok c2 →
      containsPkg c n v = true → containsPkg c2 n v = true := by
  induction entries with
  | nil =>
    intro c c2 n v h hc
    injection h with h
    rw [← h]
    exact hc
  | cons e rest ih =>
    intro c c2 n v h hc
    obtain ⟨vstr, pinfo⟩ := e
    simp only [importVersions] at h
    split at h
    · exact Except.noConfusion h
    · next c1 heq =>
      exact ih c1 c2 n v h (importOneVersion_preserves c c1 nm vstr pinfo n v heq hc)

/-- A successful version-map import stores every listed version. -/
theorem importVersions_stores (nm : String) (entries : List (String × JVal)) :
    ∀ c c2 vstr info ver, importVersions c nm entries = .ok c2 →
      (vstr, info) ∈ entries → Version.parse vstr = some ver →
      containsPkg c2 nm ver = true := by
  induction entries with
  | nil =>
    intro c c2 vstr info ver _ hmem _
    exact absurd hmem (List.not_mem_nil _)
  | cons e rest ih =>
    intro c c2 vstr info ver h hmem hver
    obtain ⟨vs, pi⟩ := e
    simp only [importVersions] at h
    split at h
    · exact Except.noConfusion h
    · next c1 heq =>
      rcases List.mem_cons.mp hmem with hhead | htail
      · injection hhead with hh1 hh2
        subst hh1
        exact importVersions_preserves nm rest c1 c2 nm ver h
          (importOneVersion_stores c c1 nm vstr pi ver heq hver)
      · exact ih c1 c2 vstr info ver h htail hver

/-- Importing a packages object preserves presence. -/
theorem importPackages_preserves (plist : List (String × JVal)) :
    ∀ c c2 n v, importPackages c plist = .ok c2 →
      containsPkg c n v = true → containsPkg c2 n v = true := by
  induction plist with
  | nil =>
    intro c c2 n v h hc
    injection h with h
    rw [← h]
    exact hc
  | cons e rest ih =>
    intro c c2 n v h hc
    obtain ⟨n1, vm⟩ := e
    simp only [importPackages] at h
    split at h
    · split at h
      · exact Except.noConfusion h
      · next c1 heq =>
        exact ih c1 c2 n v h (importVersions_preserves n1 _ c c1 n v heq hc)
    · exact Except.noConfusion h

/-- A successful packages-object import stores every listed package
version. -/
theorem importPackages_stores (plist : List (String × JVal)) :
    ∀ c c2 nm ventries vstr info ver, importPackages c plist = .ok c2 →
      (nm, JVal.obj ventries) ∈ plist → (vstr, info) ∈ ventries →
      Version.parse vstr = some ver → containsPkg c2 nm ver = true := by
  induction plist with
  | nil =>
    intro c c2 nm ventries vstr info ver _ hmem _ _
    exact absurd hmem (List.not_mem_nil _)
  | cons e rest ih =>
    intro c c2 nm ventries vstr info ver h hmem1 hmem2 hver
    rcases List.mem_cons.mp hmem1 with hhead | htail
    · obtain ⟨n1, vm⟩ := e
      injection hhead with hh1 hh2
      subst hh1
      subst hh2
      simp only [importPackages] at h
      split at h
      · exact Except.noConfusion h
      · next c1 heq =>
        exact importPackages_preserves rest c1 c2 nm ver h
          (importVersions_stores nm ventries c c1 vstr info ver heq hmem2 hver)
    · obtain ⟨n1, vm⟩ := e
      simp only [importPackages] at h
      split at h
      · split at h
        · exact Except.noConfusion h
        · next c1 heq =>
          exact ih c1 c2 nm ventries vstr info ver h htail hmem2 hver
      · exact Except.noConfusion h

/-- Claim C2: catalog::import_json_str is atomic.  When any validation or
store step fails, the transaction rolls back and the catalog is left
completely unchanged; when the import succeeds, every package version
described in the document is stored in the resulting catalog. -/
theorem catalog_import_atomic (c : Catalog) (root : JVal) :
    (∀ e, import_json_str c root = .error e → import_result c root = c)
      ∧ (∀ c2 kvs plist nm ventries vstr info ver,
          root = .obj kvs →
          jlookup kvs "packages" = .obj plist →
          import_json_str c root = .ok c2 →
          (nm, JVal.obj ventries) ∈ plist →
          (vstr, info) ∈ ventries →
          Version.parse vstr = some ver →
          containsPkg c2 nm ver = true) := by
  constructor
  · intro e h
    simp [import_result, h]
  · intro c2 kvs plist nm ventries vstr info ver hroot hpk hok hmem1 hmem2 hver
    subst hroot
    simp only [import_json_str, hpk] at hok
    split at hok
    · split at hok
      · exact importPackages_stores plist c c2 nm ventries vstr info ver hok hmem1 hmem2 hver
      · exact Except.noConfusion hok
    · exact Except.noConfusion hok

/-- Witness for claim C2: a failing import of an empty document leaves the
empty catalog unchanged, and the import of the spec example document
stores package a version 1.0.0. -/
theorem catalog_import_atomic_witness :
    import_result emptyCatalog (.obj []) = emptyCatalog
      ∧ containsPkg
          ⟨[⟨1, "a", ⟨1, 0, 0, "", ""⟩, "u", "r", none, none, ""⟩],
           [⟨1, "b", ⟨1, 2, 0, "", ""⟩, ⟨2, 0, 0, "", ""⟩⟩], 2⟩
          "a" ⟨1, 0, 0, "", ""⟩ = true :=
  ⟨(catalog_import_atomic emptyCatalog (.obj [])).1
      (.invalid_catalog_json "/version must be an integral value") rfl,
   (catalog_import_atomic emptyCatalog
      (.obj [("version", .num 1),
             ("packages", .obj [("a", .obj [("1.0.0",
                .obj [("git", .obj [("url", .str "u"), ("ref", .str "r")]),
                      ("depends", .obj [("b", .str "^1.2.0")])])])])])).2
      ⟨[⟨1, "a", ⟨1, 0, 0, "", ""⟩, "u", "r", none, none, ""⟩],
       [⟨1, "b", ⟨1, 2, 0, "", ""⟩, ⟨2, 0, 0, "", ""⟩⟩], 2⟩
      [("version", .num 1),
       ("packages", .obj [("a", .obj [("1.0.0",
          .obj [("git", .obj [("url", .str "u"), ("ref", .str "r")]),
                ("depends", .obj [("b", .str "^1.2.0")])])])])]
      [("a", .obj [("1.0.0",
          .obj [("git", .obj [("url", .str "u"), ("ref", .str "r")]),
                ("depends", .obj [("b", .str "^1.2.0")])])])]
      "a"
      [("1.0.0", .obj [("git", .obj [("url", .str "u"), ("ref", .str "r")]),
                       ("depends", .obj [("b", .str "^1.2.0")])])]
      "1.0.0"
      (.obj [("git", .obj [("url", .str "u"), ("ref", .str "r")]),
             ("depends", .obj [("b", .str "^1.2.0")])])
      ⟨1, 0, 0, "", ""⟩
      rfl rfl rfl (List.mem_singleton.mpr rfl) (List.mem_singleton.mpr rfl) rfl⟩
